import Mathlib

/-!
Verification development for the swift3 S3-compatibility middleware core:
the object request handler (swift3/controllers/obj.py) and the XML document
engine (swift3/etree.py). The Python source is embedded shallowly: requests,
responses and element trees become Lean structures, the per-verb handlers
become pure functions, backend calls go through an explicit backend-adapter
record, and Python exceptions become an error sum type threaded via Except.
External collaborators (the swift swob library, lxml) are modelled through
the interfaces the core consumes.
-/

set_option autoImplicit false

namespace Swift3

/-! Character-level models of the Python string operations used by the code.
Python str indexing, slicing and len are character based, so these are
defined over the character list underlying a Lean String. -/

/-- Lowercase one ASCII character, as Python str.lower does for the header
names appearing in this code base. -/
def lowerChar (c : Char) : Char :=
  if 'A' ≤ c ∧ c ≤ 'Z' then Char.ofNat (c.toNat + 32) else c

/-- Python str.lower over the characters of a string. -/
def pyLower (s : String) : String := String.mk (s.data.map lowerChar)

/-- Decimal digit value of a character, if it is one. -/
def digitVal (c : Char) : Option Nat :=
  if '0' ≤ c ∧ c ≤ '9' then some (c.toNat - 48) else none

/-- Accumulating helper for pyLong. -/
def pyLongAux : List Char → Nat → Option Nat
  | [], acc => some acc
  | c :: cs, acc =>
    match digitVal c with
    | some d => pyLongAux cs (acc * 10 + d)
    | none => none

/-- Python long(s) on a decimal string: fails (ValueError) on the empty
string or on any non-digit character. -/
def pyLong (s : String) : Option Nat :=
  match s.data with
  | [] => none
  | l => pyLongAux l 0

/-- Python slice s[:-n], dropping the last n characters. -/
def pyDropRightChars (s : String) (n : Nat) : String :=
  String.mk (s.data.take (s.data.length - n))

/-! Header and query-parameter mappings. Per the data model of the spec,
header sets are mappings with case-insensitive keys (the swob header dicts
the code manipulates), while query-parameter keys are case-sensitive
(a plain Python dict). Both are embedded as association lists: lookup
returns the first matching entry, and assignment replaces every matching
entry. -/

abbrev Headers := List (String × String)
abbrev Params := List (String × String)

/-- Case-insensitive header lookup. -/
def headerGet (hs : Headers) (k : String) : Option String :=
  (hs.find? (fun p => pyLower p.1 == pyLower k)).map (fun p => p.2)

/-- Case-insensitive header membership, Python in on a header dict. -/
def headerMem (hs : Headers) (k : String) : Bool :=
  (headerGet hs k).isSome

/-- Case-insensitive header deletion. -/
def delH (hs : Headers) (k : String) : Headers :=
  hs.filter (fun p => !(pyLower p.1 == pyLower k))

/-- Case-insensitive header assignment: replaces any entry with the same
key up to case. -/
def setH (hs : Headers) (k v : String) : Headers :=
  delH hs k ++ [(k, v)]

/-- Case-sensitive query-parameter lookup (Python dict get). -/
def paramGet (ps : Params) (k : String) : Option String :=
  (ps.find? (fun p => p.1 == k)).map (fun p => p.2)

/-- Case-sensitive query-parameter removal (Python dict pop). -/
def paramDel (ps : Params) (k : String) : Params :=
  ps.filter (fun p => !(p.1 == k))

/-! Error taxonomy. Each constructor embeds one of the exception classes the
handler raises or propagates; PyError stands for an uncaught Python-level
TypeError or ValueError such as long(None). -/

inductive S3Err where
  | NoSuchKey (name : String)
  | InvalidRange
  | InvalidArgument (name value msg : String)
  | S3NotImplemented
  | PyError
deriving DecidableEq

/-- Response representation: integer status, case-insensitive header set,
fixed body buffer, and an optional lazy chunk producer (swob app_iter). -/
structure Resp where
  status : Nat
  headers : Headers
  body : String
  app_iter : Option (List String)
deriving DecidableEq

/-- Request representation for one inbound S3 object operation. -/
structure Request where
  method : String
  container_name : String
  object_name : String
  params : Params
  headers : Headers
  controller_name : String
deriving DecidableEq

/-- Backend object metadata as consulted during version fallback: the
mapping stored under the sysmeta key of the object info. -/
structure ObjectInfo where
  sysmeta : List (String × String)
deriving DecidableEq

/-- Lookup in the sysmeta mapping of an object info. -/
def sysmetaGet (info : ObjectInfo) (k : String) : Option String :=
  (info.sysmeta.find? (fun p => p.1 == k)).map (fun p => p.2)

/-- Backend adapter interface: the calls the object controller issues
against the backend storage system (swift proxied through swift3.request).
Modelled from the spec section External Interfaces. -/
structure Backend where
  get_response : Request → Except S3Err Resp
  get_response_query : Request → Option (List (String × String)) → Except S3Err Resp
  get_object_info : String → String → ObjectInfo
  check_copy_source : Request → Option S3Err
  gen_multipart_manifest_delete_query : Request → Option (List (String × String))

/-! Constants from swift.common.http used by the controller. -/

def HTTP_OK : Nat := 200
def HTTP_PARTIAL_CONTENT : Nat := 206
def HTTP_NO_CONTENT : Nat := 204

/-- Models swift.common.swob.content_range_header_value: the Content-Range
value for the half-open interval from start to e against a total length. -/
def content_range_header_value (start e length : Nat) : String :=
  "bytes " ++ toString start ++ "-" ++ toString (e - 1) ++ "/" ++ toString length

/-- Modelled from the spec: VERSIONING_SUFFIX lives in swift3/utils.py,
which is not under src/. The spec only requires a fixed suffix appended to
the container name to obtain the version-tracking namespace. -/
def VERSIONING_SUFFIX : String := "+versioning"

/-- Modelled from the spec: versioned_object_name lives in swift3/utils.py,
which is not under src/. The spec only requires a deterministic, reversible
naming scheme folding the version id into the object name. -/
def versioned_object_name (object_name version_id : String) : String :=
  object_name ++ "/" ++ version_id

/-! Embedding of swift3/etree.py. An element tree node carries a tag (in
Clark notation when namespace qualified), a namespace map from optional
prefixes to URIs, an attribute mapping, an optional text value and a list
of children; comments are the non-element nodes the source skips. The
mutually inductive NodeList keeps all recursion structural. -/

def XMLNS_S3 : String := "http://s3.amazonaws.com/doc/2006-03-01/"

def URLENCODE_BLACKLIST : List String :=
  ["LastModified", "ID", "DisplayName", "Initiated",
   "ContinuationToken", "NextContinuationToken", "ETag"]

mutual
inductive Node where
  | element (tag : String) (nsmap : List (Option String × String))
      (attrib : List (String × String)) (text : Option String) (children : NodeList)
  | comment (text : String)
inductive NodeList where
  | nil
  | cons (head : Node) (tail : NodeList)
end

/-- Attribute lookup, exact key (lxml attrib is a plain mapping). -/
def attrib_get (a : List (String × String)) (k : String) : Option String :=
  (a.find? (fun p => p.1 == k)).map (fun p => p.2)

/-- Attribute removal, exact key (lxml attrib pop). -/
def attrib_pop (a : List (String × String)) (k : String) : List (String × String) :=
  a.filter (fun p => !(p.1 == k))

/-- True when a tag is namespace qualified in Clark notation, that is,
starts with an opening brace. -/
def tag_namespaced (tag : String) : Bool :=
  match tag.data with
  | [] => false
  | c :: _ => c == '\x7b'

/-- Embeds the inner remove_ns of cleanup_namespaces: strip one leading
Clark-notation namespace qualifier from a tag when it matches ns. -/
def remove_ns (tag ns : String) : String :=
  let pre := "\x7b" ++ ns ++ "\x7d"
  if pre.data.isPrefixOf tag.data then String.mk (tag.data.drop pre.data.length) else tag

/-- Default-namespace entry of a namespace map, the None key of lxml nsmap. -/
def nsmap_default (nsmap : List (Option String × String)) : Option String :=
  (nsmap.find? (fun p => p.1.isNone)).map (fun p => p.2)

/-- Set the default-namespace entry of a namespace map. -/
def nsmap_set_default (nsmap : List (Option String × String)) (ns : String) :
    List (Option String × String) :=
  nsmap.filter (fun p => !p.1.isNone) ++ [(none, ns)]

mutual
/-- Embeds cleanup_namespaces from swift3/etree.py: strip the S3 namespace
qualifier, then the default-namespace qualifier when the node has a default
namespace entry, from every element tag; comments are left untouched;
children are processed recursively. -/
def cleanup_namespaces : Node → Node
  | .comment t => .comment t
  | .element tag nsmap attrib text children =>
    let tag1 := remove_ns tag XMLNS_S3
    let tag2 :=
      match nsmap_default nsmap with
      | some ns => remove_ns tag1 ns
      | none => tag1
    .element tag2 nsmap attrib text (cleanup_children children)
def cleanup_children : NodeList → NodeList
  | .nil => .nil
  | .cons c cs => .cons (cleanup_namespaces c) (cleanup_children cs)
end

/-! Model of the Python 2 urllib quote used by tostring and the text
setter: percent-encode every UTF-8 byte outside the always-safe set
(letters, digits, underscore, dot, dash) and the default safe set (slash),
with uppercase hex digits. -/

def alwaysSafeChar (c : Char) : Bool :=
  decide (('a' ≤ c ∧ c ≤ 'z') ∨ ('A' ≤ c ∧ c ≤ 'Z') ∨ ('0' ≤ c ∧ c ≤ '9') ∨
    c = '_' ∨ c = '.' ∨ c = '-')

def hexDigitChar (n : Nat) : Char :=
  if n < 10 then Char.ofNat (48 + n) else Char.ofNat (55 + n)

def quoteByte (b : Nat) : String :=
  if b < 128 ∧ (alwaysSafeChar (Char.ofNat b) = true ∨ Char.ofNat b = '/') then
    String.singleton (Char.ofNat b)
  else
    "%" ++ String.singleton (hexDigitChar (b / 16)) ++ String.singleton (hexDigitChar (b % 16))

/-- UTF-8 encoding of one character as a byte list. -/
def utf8Bytes (c : Char) : List Nat :=
  let n := c.toNat
  if n < 0x80 then [n]
  else if n < 0x800 then [0xC0 + n / 64, 0x80 + n % 64]
  else if n < 0x10000 then [0xE0 + n / 4096, 0x80 + (n / 64) % 64, 0x80 + n % 64]
  else [0xF0 + n / 262144, 0x80 + (n / 4096) % 64, 0x80 + (n / 64) % 64, 0x80 + n % 64]

/-- Python 2 urllib quote with the default safe set. -/
def quote (s : String) : String :=
  String.join ((s.data.flatMap utf8Bytes).map quoteByte)

mutual
/-- Embeds the encoding_type equals url branch of tostring from
swift3/etree.py, applied over every node reached by tree.iter(): a node
whose tag is not in URLENCODE_BLACKLIST and whose text is a string either
has its urlencoded marker attribute popped (when the marker equals True)
or has its text percent-encoded. -/
def urlencode_node : Node → Node
  | .comment t => .comment (quote t)
  | .element tag nsmap attrib text children =>
    if tag ∈ URLENCODE_BLACKLIST then
      .element tag nsmap attrib text (urlencode_children children)
    else
      match text with
      | some t =>
        if attrib_get attrib "urlencoded" = some "True" then
          .element tag nsmap (attrib_pop attrib "urlencoded") (some t)
            (urlencode_children children)
        else
          .element tag nsmap attrib (some (quote t)) (urlencode_children children)
      | none => .element tag nsmap attrib none (urlencode_children children)
def urlencode_children : NodeList → NodeList
  | .nil => .nil
  | .cons c cs => .cons (urlencode_node c) (urlencode_children cs)
end

/-- Embeds the use_s3ns branch of tostring: a fresh root carrying the same
tag, attributes, text and (copies of the) children, whose namespace map
gains the S3 namespace as default. -/
def s3ns_inject : Node → Node
  | .element tag nsmap attrib text children =>
    .element tag (nsmap_set_default nsmap XMLNS_S3) attrib text children
  | .comment t => .comment t

/-- Embeds tostring from swift3/etree.py up to the final byte emission by
the external XML library: the tree that is handed to lxml tostring after
optional namespace injection and optional selective url-encoding. -/
def tostring_tree (tree : Node) (encoding_type : Option String) (use_s3ns : Bool) : Node :=
  let tree := if use_s3ns then s3ns_inject tree else tree
  if encoding_type = some "url" then urlencode_node tree else tree

mutual
/-- Modelled from the external XML library (lxml): serializing a tree whose
root declares d as the default namespace and reparsing the emitted bytes
yields a tree in which every element tag that carried no explicit namespace
is qualified with d in Clark notation, and every element namespace map
records the in-scope default namespace d. Comments have no tag and are
unaffected. -/
def serialize_parse (d : String) : Node → Node
  | .element tag nsmap attrib text children =>
    let tag1 := if tag_namespaced tag then tag else "\x7b" ++ d ++ "\x7d" ++ tag
    .element tag1 (nsmap_set_default nsmap d) attrib text (serialize_parse_children d children)
  | .comment t => .comment t
def serialize_parse_children (d : String) : NodeList → NodeList
  | .nil => .nil
  | .cons c cs => .cons (serialize_parse d c) (serialize_parse_children d cs)
end

mutual
/-- Checker for the canonical-tree invariant of the spec: no tag anywhere
in the tree carries a namespace qualifier; comments are skipped. -/
def ns_free : Node → Bool
  | .comment _ => true
  | .element tag _ _ _ children => !tag_namespaced tag && ns_free_children children
def ns_free_children : NodeList → Bool
  | .nil => true
  | .cons c cs => ns_free c && ns_free_children cs
end

mutual
/-- Checker relating a tree to its url-encoded serialization form, written
from the claim on selective url-encoding: tags are preserved; the text of
an element whose tag is in the exemption list is unchanged; a non-exempt
element with string text either keeps its text and loses the pre-encoded
marker (when the marker was set) or has its text percent-encoded. Comments
are outside the claim and unconstrained. -/
def url_encoded_ok : Node → Node → Bool
  | .element tag _ attrib text children, .element tag2 _ attrib2 text2 children2 =>
    (decide (tag2 = tag)) &&
    (if tag ∈ URLENCODE_BLACKLIST then decide (text2 = text)
     else
       match text with
       | some t =>
         if attrib_get attrib "urlencoded" = some "True" then
           decide (text2 = some t) && decide (attrib_get attrib2 "urlencoded" = none)
         else decide (text2 = some (quote t))
       | none => true) &&
    url_encoded_ok_children children children2
  | .comment _, .comment _ => true
  | _, _ => false
def url_encoded_ok_children : NodeList → NodeList → Bool
  | .nil, .nil => true
  | .cons c cs, .cons d ds => url_encoded_ok c d && url_encoded_ok_children cs ds
  | _, _ => false
end

/-! Embedding of swift3/controllers/obj.py. -/

/-- Fixed list of content-negotiation headers a client may override through
response- query parameters. -/
def RESPONSE_OVERRIDE_KEYS : List String :=
  ["content-type", "content-language", "expires", "cache-control",
   "content-disposition", "content-encoding"]

/-- One step of the response-header override loop. -/
def override_step (params : Params) (r : Resp) (k : String) : Resp :=
  match paramGet params ("response-" ++ k) with
  | some v => { r with headers := setH r.headers k v }
  | none => r

/-- Embeds the response-header override loop at the end of GETorHEAD. -/
def response_header_overrides (params : Params) (resp : Resp) : Resp :=
  RESPONSE_OVERRIDE_KEYS.foldl (override_step params) resp

/-- Absence of every response- override parameter. -/
def no_response_overrides (params : Params) : Prop :=
  ∀ k ∈ RESPONSE_OVERRIDE_KEYS, paramGet params ("response-" ++ k) = none

instance (params : Params) : Decidable (no_response_overrides params) := by
  unfold no_response_overrides
  infer_instance

/-- Embeds the tail of GETorHEAD after a response was resolved: drop the
body producer on HEAD, fail as NoSuchKey when the soft-delete marker header
is present, then apply the response-header overrides. -/
def getorhead_finish (req_method : String) (params : Params) (object_name : String)
    (resp : Resp) : Except S3Err Resp :=
  let resp := if req_method = "HEAD" then { resp with app_iter := none } else resp
  if headerMem resp.headers "x-amz-meta-deleted" then .error (.NoSuchKey object_name)
  else .ok (response_header_overrides params resp)

/-- Unversioned GETorHEAD path: fetch and finish; a NoSuchKey caught by the
source is re-raised unchanged because no fallback applies. -/
def getorhead_plain (be : Backend) (req : Request) : Except S3Err Resp :=
  match be.get_response req with
  | .ok resp => getorhead_finish req.method req.params req.object_name resp
  | .error e => .error e

/-- Embeds ObjectController.GETorHEAD: with a non-null versionId the target
is rewritten into the versioning container under the version-qualified
name; on NoSuchKey from that lookup the container and object names are
restored, the object info is fetched, and only when its sysmeta version-id
matches the requested version is the current object fetched; otherwise the
NoSuchKey propagates. -/
def GETorHEAD (be : Backend) (req : Request) : Except S3Err Resp :=
  match paramGet req.params "versionId" with
  | none => getorhead_plain be req
  | some v =>
    if v ≠ "" ∧ v ≠ "null" then
      let req2 : Request := { req with
        container_name := req.container_name ++ VERSIONING_SUFFIX,
        object_name := versioned_object_name req.object_name v,
        params := paramDel req.params "versionId" }
      match be.get_response req2 with
      | .ok resp => getorhead_finish req.method req2.params req.object_name resp
      | .error (.NoSuchKey n) =>
        let req3 : Request := { req2 with
          container_name := pyDropRightChars req2.container_name VERSIONING_SUFFIX.data.length,
          object_name := req.object_name }
        let info := be.get_object_info req3.container_name req.object_name
        if sysmetaGet info "version-id" = some v then
          match be.get_response req3 with
          | .ok resp => getorhead_finish req.method req3.params req.object_name resp
          | .error e => .error e
        else .error (.NoSuchKey n)
      | .error e => .error e
    else getorhead_plain be req

/-- Embeds ObjectController.GET. -/
def GET (be : Backend) (req : Request) : Except S3Err Resp :=
  GETorHEAD be req

/-- Embeds ObjectController._gen_head_range_resp. The swift Range class is
an external collaborator: rangeOfHdr models its constructor, returning none
on a ValueError and otherwise the ranges_for_length function of the parsed
range object. -/
def gen_head_range_resp
    (rangeOfHdr : String → Option (Nat → Option (List (Nat × Nat))))
    (req_range : String) (resp : Resp) : Except S3Err Resp :=
  match (headerGet resp.headers "Content-Length").bind pyLong with
  | none => .error .PyError
  | some length =>
    match rangeOfHdr req_range with
    | none => .ok resp
    | some ranges_for_length =>
      match ranges_for_length length with
      | some [] => .error .InvalidRange
      | some [(s, e)] =>
        .ok { resp with
          status := HTTP_PARTIAL_CONTENT,
          headers := setH (setH resp.headers "Content-Range"
            (content_range_header_value s e length)) "Content-Length" (toString (e - s)) }
      | _ => .ok resp

/-- Embeds ObjectController.HEAD: shared GETorHEAD, then range emulation
when the request carries a range header. -/
def HEAD (be : Backend)
    (rangeOfHdr : String → Option (Nat → Option (List (Nat × Nat))))
    (req : Request) : Except S3Err Resp :=
  match GETorHEAD be req with
  | .error e => .error e
  | .ok resp =>
    match headerGet req.headers "range" with
    | some req_range => gen_head_range_resp rangeOfHdr req_range resp
    | none => .ok resp

/-- Modelled from the spec: S3Response.append_copy_resp_body lives in
swift3/response.py, which is not under src/. Per the spec it builds and
attaches an XML copy-result body carrying the stamped last-modified
timestamp and the ETag, leaving response status and headers untouched. -/
def append_copy_resp_body (resp : Resp) (controller_name s3xmlformat : String) : Resp :=
  { resp with
    body := "<" ++ controller_name ++ "Result xmlns=\"" ++ XMLNS_S3 ++ "\"><LastModified>"
      ++ s3xmlformat ++ "</LastModified><ETag>"
      ++ ((headerGet resp.headers "etag").getD "") ++ "</ETag></"
      ++ controller_name ++ "Result>",
    app_iter := none }

/-- Embeds the metadata-scrub loop of PUT: iterate over a snapshot of the
header keys and delete each one that starts with the user-metadata
character prefix. -/
def scrub_meta_keys : List String → Headers → Headers
  | [], hs => hs
  | k :: rest, hs =>
    scrub_meta_keys rest (if "x-amz-meta-".data.isPrefixOf k.data then delH hs k else hs)

/-- Trace entries recording which backend-adapter calls a handler issued. -/
inductive BackendCall where
  | checkCopySource
  | getResponse
deriving DecidableEq

/-- Embeds ObjectController.PUT. The fresh timestamp of S3Timestamp.now()
enters as the two rendered strings the code derives from it. The returned
trace records the backend-adapter calls issued, in order. -/
def PUT (be : Backend) (ts_internal ts_s3xmlformat : String) (req : Request) :
    Except S3Err Resp × List BackendCall :=
  let req : Request := { req with headers := setH req.headers "X-Timestamp" ts_internal }
  if headerMem req.headers "X-Amz-Copy-Source" = true ∧
      headerMem req.headers "X-Amz-Copy-Source-Range" = true then
    (.error (.InvalidArgument "x-amz-copy-source-range"
      ((headerGet req.headers "X-Amz-Copy-Source-Range").getD "") "Illegal copy header"), [])
  else
    match be.check_copy_source req with
    | some e => (.error e, [.checkCopySource])
    | none =>
      match be.get_response req with
      | .error e => (.error e, [.checkCopySource, .getResponse])
      | .ok resp =>
        let resp :=
          if headerMem req.headers "X-Amz-Copy-Source" then
            let resp2 := append_copy_resp_body resp req.controller_name ts_s3xmlformat
            { resp2 with headers := scrub_meta_keys (resp2.headers.map (fun p => p.1)) resp2.headers }
          else resp
        (.ok { resp with status := HTTP_OK }, [.checkCopySource, .getResponse])

/-- Embeds ObjectController.POST. -/
def POST (_req : Request) : Except S3Err Resp :=
  .error .S3NotImplemented

/-- Embeds ObjectController.DELETE. The second component records the chunks
read from the backend body producer while draining. Setting a swob header
to None deletes it, and assigning a body resets the chunk producer. The
expansion query is truthy in the Python sense when it is a non-empty
mapping. -/
def DELETE (be : Backend) (req : Request) : Except S3Err Resp × List String :=
  let query := be.gen_multipart_manifest_delete_query req
  let req : Request := { req with headers := delH req.headers "Content-Type" }
  match be.get_response_query req query with
  | .error e => (.error e, [])
  | .ok resp =>
    if query.getD [] ≠ [] ∧ resp.status = HTTP_OK then
      (.ok { resp with status := HTTP_NO_CONTENT, body := "", app_iter := none },
        resp.app_iter.getD [])
    else (.ok resp, [])

/-! Concrete fixtures used by the witness theorems. -/

def fixResp : Resp :=
  { status := 200, headers := [("Etag", "e1")], body := "data", app_iter := some ["data"] }

/-- Backend for the version-fallback scenario: the versioning container has
no such key, the current object exists and its sysmeta version-id is abc. -/
def fixBackendMatch : Backend := {
  get_response := fun q =>
    if q.container_name = "c" ++ VERSIONING_SUFFIX then .error (.NoSuchKey "missing")
    else .ok fixResp,
  get_response_query := fun _ _ => .ok fixResp,
  get_object_info := fun _ _ => { sysmeta := [("version-id", "abc")] },
  check_copy_source := fun _ => none,
  gen_multipart_manifest_delete_query := fun _ => none }

/-- Same backend but the current object's sysmeta version-id is xyz. -/
def fixBackendMismatch : Backend :=
  { fixBackendMatch with get_object_info := fun _ _ => { sysmeta := [("version-id", "xyz")] } }

def fixReqVer : Request :=
  { method := "GET", container_name := "c", object_name := "o",
    params := [("versionId", "abc")], headers := [], controller_name := "Object" }

def fixReqCopyRange : Request :=
  { method := "PUT", container_name := "c", object_name := "o", params := [],
    headers := [("X-Amz-Copy-Source", "/b/o"), ("X-Amz-Copy-Source-Range", "bytes=0-1")],
    controller_name := "Object" }

def fixReqCopy : Request :=
  { method := "PUT", container_name := "c", object_name := "o", params := [],
    headers := [("X-Amz-Copy-Source", "/b/o")], controller_name := "Object" }

def fixReqPlain : Request :=
  { method := "PUT", container_name := "c", object_name := "o", params := [],
    headers := [], controller_name := "Object" }

/-- Backend response carrying user metadata and a non-200 status. -/
def fixRespMeta : Resp :=
  { status := 201,
    headers := [("x-amz-meta-foo", "1"), ("Etag", "e1"), ("x-amz-meta-bar", "2")],
    body := "", app_iter := none }

def fixBackendPut : Backend :=
  { fixBackendMatch with get_response := fun _ => .ok fixRespMeta }

/-- Backend for the bulk-delete scenario: an expansion query is generated
and the bulk-delete report body arrives as two chunks. -/
def fixRespBulk : Resp :=
  { status := 200, headers := [], body := "", app_iter := some ["chunk1", "chunk2"] }

def fixBackendDelete : Backend :=
  { fixBackendMatch with
    get_response_query := fun _ _ => .ok fixRespBulk,
    gen_multipart_manifest_delete_query := fun _ => some [("multipart-manifest", "delete")] }

def fixReqDelete : Request :=
  { method := "DELETE", container_name := "c", object_name := "o", params := [],
    headers := [("Content-Type", "text/plain")], controller_name := "Object" }

/-- Response of length 100 used by the range-emulation witnesses. -/
def fixRespLen : Resp :=
  { status := 200, headers := [("Content-Length", "100")], body := "", app_iter := none }

/-- Range model resolving to the single interval from 0 to 10. -/
def fixRangeSingle : String → Option (Nat → Option (List (Nat × Nat))) :=
  fun _ => some (fun length => if 10 ≤ length then some [(0, 10)] else some [])

/-- Range model whose constructor fails with ValueError. -/
def fixRangeMalformed : String → Option (Nat → Option (List (Nat × Nat))) :=
  fun _ => none

/-- Range model resolving to no satisfiable interval. -/
def fixRangeEmpty : String → Option (Nat → Option (List (Nat × Nat))) :=
  fun _ => some (fun _ => some [])

/-- Range model resolving to two intervals. -/
def fixRangeMulti : String → Option (Nat → Option (List (Nat × Nat))) :=
  fun _ => some (fun _ => some [(0, 10), (20, 31)])

/-- Canonical tree fixture: an element with one exempt child, one encodable
child, one pre-encoded child and a comment. -/
def fixTree : Node :=
  .element "ListBucketResult" [] [] none
    (.cons (.element "ETag" [] [] (some "a b\"c") .nil)
      (.cons (.element "Key" [] [] (some "a b") .nil)
        (.cons (.element "Name" [] [("urlencoded", "True")] (some "x%20y") .nil)
          (.cons (.comment "note") .nil))))

/-! Helper lemmas about the association-list operations. -/

theorem find?_filter_of_imp {α : Type} (p q : α → Bool) (l : List α)
    (h : ∀ x, p x = true → q x = true) : (l.filter q).find? p = l.find? p := by
  induction l with
  | nil => rfl
  | cons x xs ih =>
    by_cases hp : p x = true
    · have hq := h x hp
      simp [List.filter, hq, List.find?, hp, ih]
    · simp only [Bool.not_eq_true] at hp
      cases hq : q x <;> simp [List.filter, hq, List.find?, hp, ih]

theorem headerGet_setH_match (hs : Headers) (k v k' : String)
    (h : pyLower k' = pyLower k) : headerGet (setH hs k v) k' = some v := by
  unfold headerGet setH delH
  rw [List.find?_append]
  have h1 : (List.find? (fun p => pyLower p.1 == pyLower k')
      (hs.filter (fun p => !(pyLower p.1 == pyLower k)))) = none := by
    rw [List.find?_eq_none]
    intro x hx hbeq
    have hq := List.of_mem_filter hx
    simp only [Bool.not_eq_true', beq_eq_false_iff_ne] at hq
    simp only [beq_iff_eq] at hbeq
    exact hq (hbeq.trans h)
  rw [h1]
  simp [List.find?, h]

theorem headerGet_setH_ne (hs : Headers) (k v k' : String)
    (h : pyLower k' ≠ pyLower k) : headerGet (setH hs k v) k' = headerGet hs k' := by
  unfold headerGet setH delH
  rw [List.find?_append]
  rw [find?_filter_of_imp]
  · have h2 : (List.find? (fun p => pyLower p.1 == pyLower k') [(k, v)]) = none := by
      simp only [List.find?]
      have hb : (pyLower k == pyLower k') = false := beq_eq_false_iff_ne.mpr (Ne.symm h)
      rw [hb]
    rw [h2]
    cases List.find? (fun p => pyLower p.1 == pyLower k') hs <;> rfl
  · intro x hx
    simp only [beq_iff_eq] at hx
    simp [hx, h]

theorem headerMem_setH_ne (hs : Headers) (k v k' : String)
    (h : pyLower k' ≠ pyLower k) : headerMem (setH hs k v) k' = headerMem hs k' := by
  unfold headerMem
  rw [headerGet_setH_ne hs k v k' h]

theorem paramGet_paramDel_ne (ps : Params) (k k' : String)
    (h : k' ≠ k) : paramGet (paramDel ps k) k' = paramGet ps k' := by
  unfold paramGet paramDel
  rw [find?_filter_of_imp]
  intro x hx
  simp only [beq_iff_eq] at hx
  simp [hx, h]

theorem pyDropRight_append (c s : String) :
    pyDropRightChars (c ++ s) s.data.length = c := by
  unfold pyDropRightChars
  rw [String.data_append]
  have hlen : (c.data ++ s.data).length - s.data.length = c.data.length := by
    rw [List.length_append]
    omega
  rw [hlen, List.take_left]

theorem response_key_ne_versionId (k : String) : "response-" ++ k ≠ "versionId" := by
  intro h
  have hd : ("response-" ++ k).data = "versionId".data := congrArg String.data h
  rw [String.data_append] at hd
  have hlen := congrArg List.length hd
  rw [List.length_append] at hlen
  simp only [List.length] at hlen
  have hk : k.data.length = 0 := by
    have : "response-".data.length = 9 := by decide
    have : "versionId".data.length = 9 := by decide
    omega
  have hnil : k.data = [] := List.length_eq_zero.mp hk
  rw [hnil, List.append_nil] at hd
  have : ("response-".data = "versionId".data) → False := by decide
  exact this hd

theorem no_overrides_paramDel (ps : Params) (h : no_response_overrides ps) :
    no_response_overrides (paramDel ps "versionId") := by
  intro k hk
  rw [paramGet_paramDel_ne ps "versionId" ("response-" ++ k) (response_key_ne_versionId k)]
  exact h k hk

theorem overrides_foldl_id (params : Params) (keys : List String)
    (h : ∀ k ∈ keys, paramGet params ("response-" ++ k) = none) :
    ∀ resp : Resp, keys.foldl (override_step params) resp = resp := by
  induction keys with
  | nil => intro resp; rfl
  | cons k rest ih =>
    intro resp
    have hk := h k (List.mem_cons_self k rest)
    have hrest : ∀ k2 ∈ rest, paramGet params ("response-" ++ k2) = none := by
      intro k2 hk2
      exact h k2 (List.mem_cons_of_mem k hk2)
    simp only [List.foldl, override_step, hk]
    exact ih hrest resp

theorem response_header_overrides_id (params : Params) (resp : Resp)
    (h : no_response_overrides params) :
    response_header_overrides params resp = resp := by
  unfold response_header_overrides
  exact overrides_foldl_id params RESPONSE_OVERRIDE_KEYS h resp

theorem mem_of_mem_delH (hs : Headers) (k : String) (p : String × String)
    (h : p ∈ delH hs k) : p ∈ hs :=
  List.mem_of_mem_filter h

theorem delH_key_ne (hs : Headers) (k : String) (p : String × String)
    (h : p ∈ delH hs k) : pyLower p.1 ≠ pyLower k := by
  have hq := List.of_mem_filter h
  simp only [Bool.not_eq_true', beq_eq_false_iff_ne] at hq
  exact hq

/-- Core lemma behind the metadata scrub: when every entry whose key starts
with the user-metadata prefix has its key in the iterated snapshot, the
scrubbed header set holds no entry whose key starts with the prefix. -/
theorem scrub_meta_keys_clean (keys : List String) :
    ∀ hs : Headers,
      (∀ p ∈ hs, "x-amz-meta-".data.isPrefixOf p.1.data = true → p.1 ∈ keys) →
      ∀ p ∈ scrub_meta_keys keys hs, "x-amz-meta-".data.isPrefixOf p.1.data = false := by
  induction keys with
  | nil =>
    intro hs hcov p hp
    rw [scrub_meta_keys] at hp
    by_contra hpre
    simp only [Bool.not_eq_false] at hpre
    exact absurd (hcov p hp hpre) (List.not_mem_nil _)
  | cons k rest ih =>
    intro hs hcov p hp
    rw [scrub_meta_keys] at hp
    refine ih _ ?_ p hp
    intro q hq hqpre
    by_cases hkpre : "x-amz-meta-".data.isPrefixOf k.data = true
    · rw [if_pos hkpre] at hq
      have hq_hs : q ∈ hs := mem_of_mem_delH hs k q hq
      rcases List.mem_cons.mp (hcov q hq_hs hqpre) with heq | hrest
      · exact absurd (by rw [heq]) (delH_key_ne hs k q hq)
      · exact hrest
    · rw [if_neg hkpre] at hq
      rcases List.mem_cons.mp (hcov q hq hqpre) with heq | hrest
      · exact absurd (by rw [heq] at hqpre; exact hqpre) hkpre
      · exact hrest

/-! Helper lemmas about the etree embedding. -/

theorem brace_data : "\x7b".data = ['\x7b'] := rfl

theorem clark_data (ns : String) :
    ("\x7b" ++ ns ++ "\x7d").data = '\x7b' :: (ns.data ++ "\x7d".data) := by
  rw [String.data_append, String.data_append, brace_data]
  simp

theorem remove_ns_strip (ns rest : String) :
    remove_ns ("\x7b" ++ ns ++ "\x7d" ++ rest) ns = rest := by
  unfold remove_ns
  rw [String.data_append]
  have hpre : ("\x7b" ++ ns ++ "\x7d").data.isPrefixOf
      (("\x7b" ++ ns ++ "\x7d").data ++ rest.data) = true := by
    rw [List.isPrefixOf_iff_prefix]
    exact List.prefix_append _ _
  rw [if_pos hpre, List.drop_left]

theorem remove_ns_id_of_not_namespaced (tag ns : String)
    (h : tag_namespaced tag = false) : remove_ns tag ns = tag := by
  have hcond : ("\x7b" ++ ns ++ "\x7d").data.isPrefixOf tag.data = false := by
    rw [clark_data]
    cases htag : tag.data with
    | nil => rfl
    | cons c cs =>
      simp only [tag_namespaced, htag] at h
      have hne : ('\x7b' == c) = false :=
        beq_eq_false_iff_ne.mpr (fun hc => (beq_eq_false_iff_ne.mp h) hc.symm)
      simp [List.isPrefixOf, hne]
  have hne2 : ¬ (("\x7b" ++ ns ++ "\x7d").data.isPrefixOf tag.data = true) := by
    rw [hcond]
    exact Bool.false_ne_true
  unfold remove_ns
  exact if_neg hne2

theorem nsmap_default_set (nsmap : List (Option String × String)) (ns : String) :
    nsmap_default (nsmap_set_default nsmap ns) = some ns := by
  unfold nsmap_default nsmap_set_default
  rw [List.find?_append]
  have h1 : (List.find? (fun p => p.1.isNone) (nsmap.filter (fun p => !p.1.isNone))) = none := by
    rw [List.find?_eq_none]
    intro x hx hno
    have hq := List.of_mem_filter hx
    simp only [Bool.not_eq_true'] at hq
    exact absurd hno (by simp [hq])
  rw [h1]
  rfl

theorem attrib_get_pop_self (a : List (String × String)) (k : String) :
    attrib_get (attrib_pop a k) k = none := by
  unfold attrib_get attrib_pop
  have h1 : (List.find? (fun p => p.1 == k) (a.filter (fun p => !(p.1 == k)))) = none := by
    rw [List.find?_eq_none]
    intro x hx hbeq
    have hq := List.of_mem_filter hx
    simp only [Bool.not_eq_true', beq_eq_false_iff_ne] at hq
    simp only [beq_iff_eq] at hbeq
    exact hq hbeq
  rw [h1]
  rfl

/-- Auxiliary induction for the namespace round trip: a canonical tree
reparsed under the injected S3 default namespace canonicalizes back into a
qualifier-free tree. Proved through the mutual recursor of Node. -/
theorem cleanup_serialize_ns_free (t : Node) :
    ns_free t = true → ns_free (cleanup_namespaces (serialize_parse XMLNS_S3 t)) = true :=
  @Node.rec
    (fun t => ns_free t = true →
      ns_free (cleanup_namespaces (serialize_parse XMLNS_S3 t)) = true)
    (fun cs => ns_free_children cs = true →
      ns_free_children (cleanup_children (serialize_parse_children XMLNS_S3 cs)) = true)
    (fun tag nsmap attrib text children ih h => by
      have hparts := h
      simp only [ns_free, Bool.and_eq_true, Bool.not_eq_true'] at hparts
      have htag : tag_namespaced tag = false := hparts.1
      have hch : ns_free_children children = true := hparts.2
      have hred : cleanup_namespaces (serialize_parse XMLNS_S3
            (Node.element tag nsmap attrib text children))
          = Node.element tag (nsmap_set_default nsmap XMLNS_S3) attrib text
              (cleanup_children (serialize_parse_children XMLNS_S3 children)) := by
        simp only [serialize_parse, htag, Bool.false_eq_true, if_false, cleanup_namespaces,
          nsmap_default_set, remove_ns_strip, remove_ns_id_of_not_namespaced tag XMLNS_S3 htag]
      rw [hred]
      simp only [ns_free, Bool.and_eq_true, Bool.not_eq_true']
      exact ⟨htag, ih hch⟩)
    (fun s _ => by simp [serialize_parse, cleanup_namespaces, ns_free])
    (fun _ => rfl)
    (fun c cs ih1 ih2 h => by
      simp only [ns_free_children, Bool.and_eq_true] at h
      simp only [serialize_parse_children, cleanup_children, ns_free_children, Bool.and_eq_true]
      exact ⟨ih1 h.1, ih2 h.2⟩)
    t

/-- Namespace injection rewrites only the root namespace map, so it
preserves the canonical-tree invariant. -/
theorem ns_free_s3ns_inject (t : Node) (h : ns_free t = true) :
    ns_free (s3ns_inject t) = true := by
  cases t with
  | comment s => exact h
  | element tag nsmap attrib text children =>
    simpa [s3ns_inject, ns_free] using h

/-- Auxiliary induction for selective url-encoding: the per-node transform
of the url branch of tostring satisfies the claim checker on every tree.
Proved through the mutual recursor of Node. -/
theorem url_encoded_ok_transform (t : Node) :
    url_encoded_ok t (urlencode_node t) = true :=
  @Node.rec
    (fun t => url_encoded_ok t (urlencode_node t) = true)
    (fun cs => url_encoded_ok_children cs (urlencode_children cs) = true)
    (fun tag nsmap attrib text children ih => by
      show url_encoded_ok (Node.element tag nsmap attrib text children)
        (urlencode_node (Node.element tag nsmap attrib text children)) = true
      simp only [urlencode_node]
      by_cases hbl : tag ∈ URLENCODE_BLACKLIST
      · rw [if_pos hbl]
        simp [url_encoded_ok, hbl, ih]
      · rw [if_neg hbl]
        cases text with
        | none => simp [url_encoded_ok, hbl, ih]
        | some s =>
          show url_encoded_ok (Node.element tag nsmap attrib (some s) children)
              (if attrib_get attrib "urlencoded" = some "True" then
                Node.element tag nsmap (attrib_pop attrib "urlencoded") (some s)
                  (urlencode_children children)
              else
                Node.element tag nsmap attrib (some (quote s))
                  (urlencode_children children)) = true
          by_cases hmark : attrib_get attrib "urlencoded" = some "True"
          · rw [if_pos hmark]
            simp [url_encoded_ok, hbl, hmark, attrib_get_pop_self, ih]
          · rw [if_neg hmark]
            simp [url_encoded_ok, hbl, hmark, ih])
    (fun s => by
      show url_encoded_ok (Node.comment s) (urlencode_node (Node.comment s)) = true
      simp [urlencode_node, url_encoded_ok])
    rfl
    (fun c cs ih1 ih2 => by
      show url_encoded_ok_children (NodeList.cons c cs)
        (urlencode_children (NodeList.cons c cs)) = true
      simp [urlencode_children, url_encoded_ok_children, ih1, ih2])
    t

/-- Reduction of the GETorHEAD tail on a response without the soft-delete
marker and a request without override parameters. -/
theorem getorhead_finish_clean (m : String) (params : Params) (o : String) (r : Resp)
    (hclean : headerMem r.headers "x-amz-meta-deleted" = false)
    (hnoov : no_response_overrides params) :
    getorhead_finish m params o r
      = .ok (if m = "HEAD" then { r with app_iter := none } else r) := by
  by_cases hm : m = "HEAD" <;>
    simp [getorhead_finish, hm, hclean, response_header_overrides_id _ _ hnoov]

/-! The claim theorems and their witnesses. -/

/-- C1: for a GET or HEAD with a non-null versionId whose version-qualified
lookup fails with NoSuchKey, the handler returns the current object's
response exactly when the current object's stored sysmeta version-id equals
the requested version, and re-raises the NoSuchKey otherwise. -/
theorem c1_version_fallback (be : Backend) (req : Request) (v n : String) (r : Resp)
    (hm : req.method = "GET" ∨ req.method = "HEAD")
    (hv : paramGet req.params "versionId" = some v)
    (hv0 : v ≠ "") (hv1 : v ≠ "null")
    (hvl : be.get_response { req with
        container_name := req.container_name ++ VERSIONING_SUFFIX,
        object_name := versioned_object_name req.object_name v,
        params := paramDel req.params "versionId" } = .error (.NoSuchKey n))
    (hcur : be.get_response { req with params := paramDel req.params "versionId" } = .ok r)
    (hclean : headerMem r.headers "x-amz-meta-deleted" = false)
    (hnoov : no_response_overrides req.params) :
    (sysmetaGet (be.get_object_info req.container_name req.object_name) "version-id" = some v →
      GETorHEAD be req = .ok (if req.method = "HEAD" then { r with app_iter := none } else r)) ∧
    (sysmetaGet (be.get_object_info req.container_name req.object_name) "version-id" ≠ some v →
      GETorHEAD be req = .error (.NoSuchKey n)) := by
  have hstrip : pyDropRightChars (req.container_name ++ VERSIONING_SUFFIX)
      VERSIONING_SUFFIX.data.length = req.container_name :=
    pyDropRight_append req.container_name VERSIONING_SUFFIX
  constructor
  · intro hsys
    simp only [GETorHEAD, hv]
    rw [if_pos ⟨hv0, hv1⟩, hvl]
    simp only [hstrip]
    rw [if_pos hsys, hcur]
    exact getorhead_finish_clean req.method (paramDel req.params "versionId") req.object_name r
      hclean (no_overrides_paramDel req.params hnoov)
  · intro hsys
    simp only [GETorHEAD, hv]
    rw [if_pos ⟨hv0, hv1⟩, hvl]
    simp only [hstrip]
    rw [if_neg hsys]

theorem c1_witness :
    GETorHEAD fixBackendMatch fixReqVer = .ok fixResp ∧
    GETorHEAD fixBackendMismatch fixReqVer = .error (.NoSuchKey "missing") := by
  constructor
  · exact (c1_version_fallback fixBackendMatch fixReqVer "abc" "missing" fixResp
      (Or.inl rfl) (by rfl) (by decide) (by decide) (by rfl) (by rfl) (by rfl)
      (by decide)).1 (by rfl)
  · exact (c1_version_fallback fixBackendMismatch fixReqVer "abc" "missing" fixResp
      (Or.inl rfl) (by rfl) (by decide) (by decide) (by rfl) (by rfl) (by rfl)
      (by decide)).2 (by decide)

/-- C2: a PUT whose headers carry both the copy-source and the
copy-source-range headers fails with InvalidArgument before any backend
call: the trace of issued backend calls is empty. -/
theorem c2_copy_range_rejected (be : Backend) (t1 t2 : String) (req : Request) (rv : String)
    (hcs : headerMem req.headers "X-Amz-Copy-Source" = true)
    (hrv : headerGet req.headers "X-Amz-Copy-Source-Range" = some rv) :
    PUT be t1 t2 req
      = (.error (.InvalidArgument "x-amz-copy-source-range" rv "Illegal copy header"),
         ([] : List BackendCall)) := by
  have h1 : headerMem (setH req.headers "X-Timestamp" t1) "X-Amz-Copy-Source" = true := by
    rw [headerMem_setH_ne _ _ _ _ (by decide)]
    exact hcs
  have h2 : headerGet (setH req.headers "X-Timestamp" t1) "X-Amz-Copy-Source-Range"
      = some rv := by
    rw [headerGet_setH_ne _ _ _ _ (by decide)]
    exact hrv
  have h3 : headerMem (setH req.headers "X-Timestamp" t1) "X-Amz-Copy-Source-Range" = true := by
    unfold headerMem
    rw [h2]
    rfl
  simp only [PUT]
  rw [if_pos ⟨h1, h3⟩, h2]
  rfl

theorem c2_witness :
    PUT fixBackendMatch "ts" "tsx" fixReqCopyRange
      = (.error (.InvalidArgument "x-amz-copy-source-range" "bytes=0-1" "Illegal copy header"),
         ([] : List BackendCall)) :=
  c2_copy_range_rejected fixBackendMatch "ts" "tsx" fixReqCopyRange "bytes=0-1"
    (by rfl) (by rfl)

/-- C3: a copy PUT whose backend call succeeds answers with status 200
regardless of the backend status and with no header whose name starts with
the user-metadata prefix, however many such headers the backend returned. -/
theorem c3_copy_scrub (be : Backend) (t1 t2 : String) (req : Request) (r : Resp)
    (hcs : headerMem req.headers "X-Amz-Copy-Source" = true)
    (hnr : headerMem req.headers "X-Amz-Copy-Source-Range" = false)
    (hchk : be.check_copy_source { req with headers := setH req.headers "X-Timestamp" t1 } = none)
    (hput : be.get_response { req with headers := setH req.headers "X-Timestamp" t1 } = .ok r) :
    ∃ r2 : Resp, (PUT be t1 t2 req).1 = .ok r2 ∧ r2.status = HTTP_OK ∧
      ∀ p ∈ r2.headers, "x-amz-meta-".data.isPrefixOf p.1.data = false := by
  have h1 : headerMem (setH req.headers "X-Timestamp" t1) "X-Amz-Copy-Source" = true := by
    rw [headerMem_setH_ne _ _ _ _ (by decide)]
    exact hcs
  have h3 : headerMem (setH req.headers "X-Timestamp" t1) "X-Amz-Copy-Source-Range" = false := by
    rw [headerMem_setH_ne _ _ _ _ (by decide)]
    exact hnr
  have hcond : ¬ (headerMem (setH req.headers "X-Timestamp" t1) "X-Amz-Copy-Source" = true ∧
      headerMem (setH req.headers "X-Timestamp" t1) "X-Amz-Copy-Source-Range" = true) := by
    intro hc
    rw [h3] at hc
    exact Bool.false_ne_true hc.2
  simp only [PUT]
  rw [if_neg hcond, hchk, hput]
  simp only [h1, if_true]
  refine ⟨_, rfl, rfl, ?_⟩
  intro p hp
  exact scrub_meta_keys_clean _ _
    (fun q hq hqpre => List.mem_map_of_mem (fun x => x.1) hq) p hp

theorem c3_witness :
    ∃ r2 : Resp, (PUT fixBackendPut "ts" "tsx" fixReqCopy).1 = .ok r2 ∧
      r2.status = HTTP_OK ∧
      ∀ p ∈ r2.headers, "x-amz-meta-".data.isPrefixOf p.1.data = false :=
  c3_copy_scrub fixBackendPut "ts" "tsx" fixReqCopy fixRespMeta
    (by rfl) (by rfl) (by rfl) (by rfl)

/-- C4: a DELETE for which a bulk-delete expansion query was generated and
whose backend call reports status 200 drains the whole streamed report and
answers status 204 with an empty body. -/
theorem c4_delete_drain (be : Backend) (req : Request)
    (q : List (String × String)) (r : Resp) (chunks : List String)
    (hq : be.gen_multipart_manifest_delete_query req = some q)
    (hqne : q ≠ [])
    (hresp : be.get_response_query { req with headers := delH req.headers "Content-Type" }
      (some q) = .ok r)
    (hst : r.status = HTTP_OK)
    (hiter : r.app_iter = some chunks) :
    DELETE be req
      = (.ok { r with status := HTTP_NO_CONTENT, body := "", app_iter := none }, chunks) := by
  simp only [DELETE, hq, hresp]
  rw [if_pos ⟨hqne, hst⟩, hiter]
  rfl

theorem c4_witness :
    DELETE fixBackendDelete fixReqDelete
      = (.ok { status := HTTP_NO_CONTENT, headers := [], body := "", app_iter := none },
         ["chunk1", "chunk2"]) :=
  c4_delete_drain fixBackendDelete fixReqDelete [("multipart-manifest", "delete")]
    fixRespBulk ["chunk1", "chunk2"] (by rfl) (by decide) (by rfl) (by rfl) (by rfl)

/-- C5: a HEAD range emulation whose range specification resolves to the
single interval from s to e within length L produces status 206, a
Content-Range header naming s, e-1 and L, and Content-Length e-s. -/
theorem c5_single_range_resp
    (rangeOfHdr : String → Option (Nat → Option (List (Nat × Nat))))
    (ranges_for_length : Nat → Option (List (Nat × Nat)))
    (req_range cl : String) (resp : Resp) (L s e : Nat)
    (hcl : headerGet resp.headers "Content-Length" = some cl)
    (hn : pyLong cl = some L)
    (hr : rangeOfHdr req_range = some ranges_for_length)
    (h1 : ranges_for_length L = some [(s, e)])
    (hse : s < e) (heL : e ≤ L) :
    ∃ r : Resp, gen_head_range_resp rangeOfHdr req_range resp = .ok r ∧
      r.status = HTTP_PARTIAL_CONTENT ∧
      headerGet r.headers "Content-Range"
        = some ("bytes " ++ toString s ++ "-" ++ toString (e - 1) ++ "/" ++ toString L) ∧
      headerGet r.headers "Content-Length" = some (toString (e - s)) := by
  have hred : gen_head_range_resp rangeOfHdr req_range resp
      = .ok { resp with
          status := HTTP_PARTIAL_CONTENT,
          headers := setH (setH resp.headers "Content-Range"
            (content_range_header_value s e L)) "Content-Length" (toString (e - s)) } := by
    simp only [gen_head_range_resp, hcl, Option.bind, hn, hr, h1]
  refine ⟨_, hred, rfl, ?_, ?_⟩
  · rw [headerGet_setH_ne _ _ _ _ (by decide)]
    exact headerGet_setH_match _ _ _ _ rfl
  · exact headerGet_setH_match _ _ _ _ rfl

theorem c5_witness :
    ∃ r : Resp, gen_head_range_resp fixRangeSingle "bytes=0-9" fixRespLen = .ok r ∧
      r.status = HTTP_PARTIAL_CONTENT ∧
      headerGet r.headers "Content-Range"
        = some ("bytes " ++ toString 0 ++ "-" ++ toString (10 - 1) ++ "/" ++ toString 100) ∧
      headerGet r.headers "Content-Length" = some (toString (10 - 0)) :=
  c5_single_range_resp fixRangeSingle
    (fun length => if 10 ≤ length then some [(0, 10)] else some [])
    "bytes=0-9" "100" fixRespLen 100 0 10 (by rfl) (by rfl) (by rfl) (by rfl)
    (by decide) (by decide)

/-- C6: a parsable range specification resolving to zero satisfiable
intervals makes the HEAD range emulation fail with InvalidRange
specifically. -/
theorem c6_zero_intervals_invalid
    (rangeOfHdr : String → Option (Nat → Option (List (Nat × Nat))))
    (ranges_for_length : Nat → Option (List (Nat × Nat)))
    (req_range cl : String) (resp : Resp) (L : Nat)
    (hcl : headerGet resp.headers "Content-Length" = some cl)
    (hn : pyLong cl = some L)
    (hr : rangeOfHdr req_range = some ranges_for_length)
    (h0 : ranges_for_length L = some []) :
    gen_head_range_resp rangeOfHdr req_range resp = .error .InvalidRange := by
  simp only [gen_head_range_resp, hcl, Option.bind, hn, hr, h0]

theorem c6_witness :
    gen_head_range_resp fixRangeEmpty "bytes=200-300" fixRespLen = .error .InvalidRange :=
  c6_zero_intervals_invalid fixRangeEmpty (fun _ => some [])
    "bytes=200-300" "100" fixRespLen 100 (by rfl) (by rfl) (by rfl) (by rfl)

/-- C7: an unparsable range specification, or one resolving to two or more
intervals, leaves the HEAD response unchanged and raises nothing. -/
theorem c7_range_passthrough
    (rangeOfHdr : String → Option (Nat → Option (List (Nat × Nat))))
    (req_range cl : String) (resp : Resp) (L : Nat)
    (hcl : headerGet resp.headers "Content-Length" = some cl)
    (hn : pyLong cl = some L) :
    (rangeOfHdr req_range = none →
      gen_head_range_resp rangeOfHdr req_range resp = .ok resp) ∧
    (∀ (f : Nat → Option (List (Nat × Nat))) (a b : Nat × Nat) (rest : List (Nat × Nat)),
      rangeOfHdr req_range = some f → f L = some (a :: b :: rest) →
      gen_head_range_resp rangeOfHdr req_range resp = .ok resp) := by
  constructor
  · intro hmal
    simp only [gen_head_range_resp, hcl, Option.bind, hn, hmal]
  · intro f a b rest hf hmulti
    simp only [gen_head_range_resp, hcl, Option.bind, hn, hf, hmulti]

theorem c7_witness :
    gen_head_range_resp fixRangeMalformed "bytes=oops" fixRespLen = .ok fixRespLen ∧
    gen_head_range_resp fixRangeMulti "bytes=0-9,20-30" fixRespLen = .ok fixRespLen := by
  constructor
  · exact (c7_range_passthrough fixRangeMalformed "bytes=oops" "100" fixRespLen 100
      (by rfl) (by rfl)).1 (by rfl)
  · exact (c7_range_passthrough fixRangeMulti "bytes=0-9,20-30" "100" fixRespLen 100
      (by rfl) (by rfl)).2 (fun _ => some [(0, 10), (20, 31)]) (0, 10) (20, 31) []
      (by rfl) (by rfl)

/-- C8: serializing any element tree with url encoding never percent
encodes text under exempt tags, uniformly percent encodes the string text
of non-exempt unmarked elements, and clears the pre-encoded marker of a
marked element while keeping its text, at every depth of the tree. -/
theorem c8_selective_url_encoding (t : Node) (b : Bool) :
    url_encoded_ok (if b then s3ns_inject t else t) (tostring_tree t (some "url") b) = true := by
  have ht : tostring_tree t (some "url") b = urlencode_node (if b then s3ns_inject t else t) := by
    simp [tostring_tree]
  rw [ht]
  exact url_encoded_ok_transform (if b then s3ns_inject t else t)

/-- C9: reparsing the serialization of any canonical tree under the
injected S3 default namespace and canonicalizing again leaves no namespace
qualifier on any tag at any depth. -/
theorem c9_namespace_roundtrip (t : Node) (h : ns_free t = true) :
    ns_free (cleanup_namespaces (serialize_parse XMLNS_S3 (tostring_tree t none true))) = true := by
  have ht : tostring_tree t none true = s3ns_inject t := by
    simp [tostring_tree]
  rw [ht]
  exact cleanup_serialize_ns_free (s3ns_inject t) (ns_free_s3ns_inject t h)

theorem c9_witness :
    ns_free fixTree = true ∧
    ns_free (cleanup_namespaces (serialize_parse XMLNS_S3
      (tostring_tree fixTree none true))) = true :=
  ⟨by decide, c9_namespace_roundtrip fixTree (by decide)⟩

/-- C10: every PUT whose backend call succeeds, copy or not, answers with
status 200 whatever status the backend returned, because the status
override sits outside the copy branch. -/
theorem c10_put_status_forced_ok (be : Backend) (t1 t2 : String) (req : Request) (r : Resp)
    (hnotboth : ¬ (headerMem req.headers "X-Amz-Copy-Source" = true ∧
      headerMem req.headers "X-Amz-Copy-Source-Range" = true))
    (hchk : be.check_copy_source { req with headers := setH req.headers "X-Timestamp" t1 } = none)
    (hput : be.get_response { req with headers := setH req.headers "X-Timestamp" t1 } = .ok r) :
    ∃ r2 : Resp, (PUT be t1 t2 req).1 = .ok r2 ∧ r2.status = HTTP_OK := by
  have hcond : ¬ (headerMem (setH req.headers "X-Timestamp" t1) "X-Amz-Copy-Source" = true ∧
      headerMem (setH req.headers "X-Timestamp" t1) "X-Amz-Copy-Source-Range" = true) := by
    rw [headerMem_setH_ne _ _ _ _ (by decide), headerMem_setH_ne _ _ _ _ (by decide)]
    exact hnotboth
  simp only [PUT]
  rw [if_neg hcond, hchk, hput]
  by_cases hc : headerMem (setH req.headers "X-Timestamp" t1) "X-Amz-Copy-Source" = true
  · simp only [hc, if_true]
    exact ⟨_, rfl, rfl⟩
  · simp only [hc, if_false]
    exact ⟨_, rfl, rfl⟩

theorem c10_witness :
    ∃ r2 : Resp, (PUT fixBackendPut "ts" "tsx" fixReqPlain).1 = .ok r2 ∧
      r2.status = HTTP_OK :=
  c10_put_status_forced_ok fixBackendPut "ts" "tsx" fixReqPlain fixRespMeta
    (by decide) (by rfl) (by rfl)

end Swift3
